import Mathlib

/-!
Verification development for the SIEMBox detection engine
(src/detection/main.py).  The engine loads Sigma-style YAML rules,
keeps per-rule enabled flags, and evaluates inbound log events
(legacy-shaped or OCSF-shaped JSON objects) against the enabled rules,
emitting at most one alert per event.

The embedding below translates the reachable Python code into Lean:
JSON-like dynamic values become the inductive `Value`; Python dicts
become association lists with unique keys in insertion order; functions
that wrap their body in a try/except returning False are modelled as an
`Option Bool` body (none = an exception was raised) plus a wrapper that
maps `none` to `false`.  Wall-clock statistics (processing rate,
24-hour alert window, timestamps) and network I/O (rule-state fetch,
git refresh, retry loops) are outside the embedding; the pure
per-request / per-file logic that the claims are about is translated
faithfully.
-/

/-- A JSON-style dynamic value, as produced by parsing a request body or
a YAML rule file in the Python source. -/
inductive Value where
  | vNull : Value
  | vBool : Bool → Value
  | vInt : Int → Value
  | vStr : String → Value
  | vList : List Value → Value
  | vDict : List (String × Value) → Value

open Value

mutual
/-- Python == on values (structural equality of the JSON shapes). -/
def valueBeq : Value → Value → Bool
  | vNull, vNull => true
  | vBool a, vBool b => a == b
  | vInt a, vInt b => a == b
  | vStr a, vStr b => a == b
  | vList a, vList b => valueBeqList a b
  | vDict a, vDict b => valueBeqPairs a b
  | _, _ => false

def valueBeqList : List Value → List Value → Bool
  | [], [] => true
  | a :: as, b :: bs => valueBeq a b && valueBeqList as bs
  | _, _ => false

def valueBeqPairs : List (String × Value) → List (String × Value) → Bool
  | [], [] => true
  | (k1, v1) :: as, (k2, v2) :: bs => k1 == k2 && valueBeq v1 v2 && valueBeqPairs as bs
  | _, _ => false
end

instance : BEq Value := ⟨valueBeq⟩

/-- Python dict, modelled as an association list in insertion order with
unique keys. -/
abbrev Dict := List (String × Value)

/-- ASCII lowering of one character (Python str.lower on the ASCII range;
all strings appearing in the rules and events under analysis are ASCII). -/
def lowerChar (c : Char) : Char :=
  if 65 ≤ c.toNat ∧ c.toNat ≤ 90 then Char.ofNat (c.toNat + 32) else c

/-- Python s.lower(). -/
def lowerStr (s : String) : String :=
  String.mk (s.data.map lowerChar)

/-- hay starts with needle (on character lists). -/
def listStarts : List Char → List Char → Bool
  | _, [] => true
  | [], _ :: _ => false
  | h :: hs, n :: ns => h == n && listStarts hs ns

/-- needle occurs contiguously in hay (on character lists). -/
def listOccurs (needle : List Char) : List Char → Bool
  | [] => listStarts [] needle
  | h :: t => listStarts (h :: t) needle || listOccurs needle t

/-- Python "needle in hay" for strings (substring test). -/
def pyIn (needle hay : String) : Bool :=
  listOccurs needle.data hay.data

/-- hay ends with needle (Python str.endswith). -/
def strEnds (hay needle : String) : Bool :=
  listStarts hay.data.reverse needle.data.reverse

/-- Python truthiness of a value (used by "or" defaulting and by the
`if rule.logsource:` test). -/
def pyTruthy : Value → Bool
  | vNull => false
  | vBool b => b
  | vInt n => n != 0
  | vStr s => s != ""
  | vList l => !l.isEmpty
  | vDict d => !d.isEmpty

/-- Single-quote character, used by Python repr of strings. -/
def squote : Char := Char.ofNat 39

mutual
/-- Python repr(v) for the value shapes in scope (string escaping inside
repr is not exercised by the rule corpus and is not modelled). -/
def pyRepr : Value → String
  | vNull => "None"
  | vBool b => if b then "True" else "False"
  | vInt n => toString n
  | vStr s => String.mk (squote :: s.data ++ [squote])
  | vList xs => "[" ++ String.intercalate ", " (pyReprList xs) ++ "]"
  | vDict kvs => "\x7b" ++ String.intercalate ", " (pyReprPairs kvs) ++ "\x7d"

def pyReprList : List Value → List String
  | [] => []
  | v :: vs => pyRepr v :: pyReprList vs

def pyReprPairs : List (String × Value) → List String
  | [] => []
  | (k, v) :: kvs =>
      (String.mk (squote :: k.data ++ [squote]) ++ ": " ++ pyRepr v) :: pyReprPairs kvs
end

/-- Python str(v): identity on strings, repr-style on containers. -/
def pyStr : Value → String
  | vStr s => s
  | v => pyRepr v

/-- JSON string literal (escaping of quote and backslash; other escapes
are not exercised by the inputs in scope). -/
def jsonEscChar (c : Char) : String :=
  if c == '"' then "\\\"" else if c == '\\' then "\\\\" else String.mk [c]

def jsonStr (s : String) : String :=
  "\"" ++ String.join (s.data.map jsonEscChar) ++ "\""

mutual
/-- Python json.dumps with default separators, keys in insertion order. -/
def jsonDumpsV : Value → String
  | vNull => "null"
  | vBool b => if b then "true" else "false"
  | vInt n => toString n
  | vStr s => jsonStr s
  | vList xs => "[" ++ String.intercalate ", " (jsonDumpsList xs) ++ "]"
  | vDict kvs => "\x7b" ++ String.intercalate ", " (jsonDumpsPairs kvs) ++ "\x7d"

def jsonDumpsList : List Value → List String
  | [] => []
  | v :: vs => jsonDumpsV v :: jsonDumpsList vs

def jsonDumpsPairs : List (String × Value) → List String
  | [] => []
  | (k, v) :: kvs => (jsonStr k ++ ": " ++ jsonDumpsV v) :: jsonDumpsPairs kvs
end

/-- Python d.get(k, dflt) on a dict. -/
def dictGetD (d : Dict) (k : String) (dflt : Value) : Value :=
  (d.lookup k).getD dflt

/-- Python v.lower(): succeeds only on strings (AttributeError, i.e.
an exception, otherwise). -/
def pyLowerV : Value → Option String
  | vStr s => some (lowerStr s)
  | _ => none

/-- Python "k in v" for a string key k: key test on dicts, substring on
strings, membership on lists, TypeError (none) otherwise. -/
def valContainsKey (k : String) : Value → Option Bool
  | vDict d => some (d.lookup k).isSome
  | vStr s => some (pyIn k s)
  | vList xs => some (xs.any (fun x => valueBeq x (vStr k)))
  | _ => none

/-- Python v[k] for a string key k (only dicts; `none` means an exception). -/
def valIndex (k : String) : Value → Option Value
  | vDict d => d.lookup k
  | _ => none

/-- Python v.get(k, dflt): only dicts have .get (AttributeError otherwise). -/
def valGet : Value → String → Value → Option Value
  | vDict d, k, dflt => some ((d.lookup k).getD dflt)
  | _, _, _ => none

/-- A loaded detection rule (the Rule pydantic model of the source). -/
structure Rule where
  id : String
  title : String
  description : String
  level : String
  detection : Dict
  logsource : List (String × String)
  enabled : Bool := false
  category : String := ""

/-- An emitted alert (the Alert pydantic model; the wall-clock
timestamp field is outside the embedding). -/
structure Alert where
  rule_id : String
  rule_name : String
  log_source : Value
  matched_log : Dict
  severity : String

/-- metadata = log_entry.get('metadata', \x7b\x7d) or
log_entry.get('log_metadata', \x7b\x7d). -/
def getMetadata (e : Dict) : Value :=
  let m := dictGetD e "metadata" (vDict [])
  if pyTruthy m then m else dictGetD e "log_metadata" (vDict [])

/-- Log-source gate of match_rule: when rule.logsource is non-empty,
its product and service entries (when truthy) must be case-insensitive
substrings of the event source; `none` = event source is not a string,
so .lower() raised. -/
def logsourceCheck (ls : List (String × String)) (e : Dict) : Option Bool :=
  if ls.isEmpty then some true
  else
    match pyLowerV (dictGetD e "source" (vStr "")) with
    | none => none
    | some source =>
      let prodFail := match ls.lookup "product" with
        | some p => p != "" && !(pyIn (lowerStr p) source)
        | none => false
      let servFail := match ls.lookup "service" with
        | some s => s != "" && !(pyIn (lowerStr s) source)
        | none => false
      some (!(prodFail || servFail))

/-- Metadata/logsource agreement gate of match_rule for one key
("product" or "category"): when the key occurs in the metadata and the
rule logsource has a truthy entry for it, the two must be equal after
lowering. -/
def metaSideCheck (ls : List (String × String)) (key : String) (metadata : Value) :
    Option Bool :=
  match valContainsKey key metadata with
  | none => none
  | some has =>
    match ls.lookup key with
    | some lsv =>
      if has && lsv != "" then
        match valIndex key metadata with
        | none => none
        | some mv =>
          match pyLowerV mv with
          | none => none
          | some ml => some (ml == lowerStr lsv)
      else some true
    | none => some true

/-- field.split(sep)[0] for sep = the pipe character. -/
def splitHead (field : String) : String :=
  String.mk (field.data.takeWhile (fun c => c != '|'))

/-- One selection field test: a field name containing "|contains"
requires the (lowered, stringified) rule value — or any element of a
list value — to be a substring of the lowered metadata value; otherwise
the comparison is equality of the lowered stringified values (membership
for a list-valued rule entry).  A missing metadata field compares as
the empty string. -/
def fieldCheck (field : String) (values : Value) (metadata : Value) : Option Bool :=
  if pyIn "|contains" field then
    match valGet metadata (splitHead field) (vStr "") with
    | none => none
    | some fv =>
      let field_value := lowerStr (pyStr fv)
      match values with
      | vList vs => some (vs.any (fun v => pyIn (lowerStr (pyStr v)) field_value))
      | v => some (pyIn (lowerStr (pyStr v)) field_value)
  else
    match valGet metadata field (vStr "") with
    | none => none
    | some fv =>
      let field_value := lowerStr (pyStr fv)
      match values with
      | vList vs => some ((vs.map (fun v => lowerStr (pyStr v))).contains (lowerStr field_value))
      | v => some (lowerStr field_value == lowerStr (pyStr v))

/-- AND-fold of the selection fields, in insertion order, stopping at
the first failing field (the source returns False from inside the loop). -/
def selectionFields : List (String × Value) → Value → Option Bool
  | [], _ => some true
  | (field, values) :: rest, metadata =>
    match fieldCheck field values metadata with
    | none => none
    | some false => some false
    | some true => selectionFields rest metadata

/-- any(kw.lower() in log_str for kw in keywords): short-circuiting, so
a non-string keyword after a hit is never touched. -/
def keywordsAny : List Value → String → Option Bool
  | [], _ => some false
  | kw :: rest, log_str =>
    match pyLowerV kw with
    | none => none
    | some kl => if pyIn kl log_str then some true else keywordsAny rest log_str

/-- The keywords branch of a detection, against an already serialized
and lowered target string. -/
def keywordsEval (kws : Value) (log_str : String) : Option Bool :=
  match kws with
  | vList l => keywordsAny l log_str
  | kw =>
    match pyLowerV kw with
    | none => none
    | some kl => some (pyIn kl log_str)

/-- Body of match_rule (src/detection/main.py lines 288-350); `none`
records that the Python body raised, which the try/except wrapper of
match_rule turns into False. -/
def matchRuleBody (rule : Rule) (e : Dict) : Option Bool :=
  match logsourceCheck rule.logsource e with
  | none => none
  | some false => some false
  | some true =>
    let metadata := getMetadata e
    match metaSideCheck rule.logsource "product" metadata with
    | none => none
    | some false => some false
    | some true =>
      match metaSideCheck rule.logsource "category" metadata with
      | none => none
      | some false => some false
      | some true =>
        match rule.detection.lookup "selection" with
        | some (vDict entries) => selectionFields entries metadata
        | some _ => some false
        | none =>
          match rule.detection.lookup "keywords" with
          | some kws => keywordsEval kws (lowerStr (jsonDumpsV (vDict e)))
          | none => some false

/-- match_rule: legacy-event matcher (never raises; internal errors are
non-matches). -/
def match_rule (rule : Rule) (e : Dict) : Bool :=
  (matchRuleBody rule e).getD false

/-- Body of the module-level check_detection_conditions
(src lines 588-630): selection fields are resolved against the data
dict itself. -/
def detectionBody (detection : Dict) (data : Dict) : Option Bool :=
  match detection.lookup "selection" with
  | some (vDict entries) => selectionFields entries (vDict data)
  | some _ => some false
  | none =>
    match detection.lookup "keywords" with
    | some kws => keywordsEval kws (lowerStr (jsonDumpsV (vDict data)))
    | none => some false

def check_detection_conditions (detection : Dict) (data : Dict) : Bool :=
  (detectionBody detection data).getD false

/-- Body of basic_ocsf_match (src lines 498-586).  When the selection is
a mapping the source falls through a nested helper definition that is
never invoked, directly to the keywords check, so a dict-valued
selection is never field-matched here; a non-dict selection returns
False. -/
def basicBody (rule : Rule) (cd : Dict) : Option Bool :=
  match rule.detection.lookup "selection" with
  | some (vDict _) =>
    match rule.detection.lookup "keywords" with
    | some kws => keywordsEval kws (lowerStr (jsonDumpsV (vDict cd)))
    | none => some false
  | some _ => some false
  | none =>
    match rule.detection.lookup "keywords" with
    | some kws => keywordsEval kws (lowerStr (jsonDumpsV (vDict cd)))
    | none => some false

def basic_ocsf_match (rule : Rule) (cd : Dict) : Bool :=
  (basicBody rule cd).getD false

/-- Python dict merge: entries of the first dict in order, overridden by
the second, then entries only in the second. -/
def dictMerge (a b : Dict) : Dict :=
  a.map (fun kv => (kv.1, (b.lookup kv.1).getD kv.2)) ++
  b.filter (fun kv => (a.lookup kv.1).isNone)

/-- combined_data of match_ocsf_rule: raw_event unioned with the
top-level fields (top-level wins); a non-dict raw_event raises in the
outer try, which returns False. -/
def combinedData (e : Dict) : Option Dict :=
  match e.lookup "raw_event" with
  | none => some (dictMerge [] e)
  | some (vDict d) => some (dictMerge d e)
  | some _ => none

/-- Outcome of converting a rule through the external pySigma OCSF
pipeline and evaluating the produced query texts against the combined
data (src lines 375-399): `some true` when some converted query
evaluates to a truthy result, `some false` when conversion succeeds but
no query matches, `none` when the conversion raises.  The conversion
runs the external sigma library plus a Python eval of generated query
text, so it enters the embedding as a parameter. -/
abbrev QueryOracle := Rule → Dict → Option Bool

/-- match_ocsf_rule, reachable behaviour (src lines 356-461).  The
pySigma attempt either returns a match, or falls back to
basic_ocsf_match (both on success-without-match and on conversion
error); an earlier error while lowering class_name / category_name /
activity_name (a non-string value) jumps to check_detection_conditions.
The Sigma-to-OCSF category synonym table and the direct substring
category checks of lines 408-453 sit after a try/except whose every
path returns, so they are unreachable and contribute no behaviour. -/
def ocsfInner (qm : QueryOracle) (rule : Rule) (cd : Dict) : Bool :=
  match pyLowerV (dictGetD cd "class_name" (vStr "")),
        pyLowerV (dictGetD cd "category_name" (vStr "")),
        pyLowerV (dictGetD cd "activity_name" (vStr "")) with
  | some _, some _, some _ =>
    match qm rule cd with
    | some true => true
    | _ => basic_ocsf_match rule cd
  | _, _, _ => check_detection_conditions rule.detection cd

def match_ocsf_rule (qm : QueryOracle) (rule : Rule) (e : Dict) : Bool :=
  match combinedData e with
  | none => false
  | some cd => ocsfInner qm rule cd

/-- INTERNAL_SERVICES: the engine's sibling services whose legacy logs
never trigger detections. -/
def INTERNAL_SERVICES : List String :=
  ["api", "collector", "detection", "iplookup", "frontend", "detections_page"]

/-- The module-level mutable state that the request handlers touch:
the loaded corpus, the rule-state map, the processed-log counter and
the recent-log-id ring.  Wall-clock statistics (per-minute rate, 24 h
alert window, status flag) are time-based and stay outside the
embedding. -/
structure EngineState where
  sigma_rules : List Rule
  rule_states : List (String × Bool)
  processed_logs : Nat
  processed_log_ids : List Value

/-- collections.deque(maxlen := cap).append: drop from the left when
over capacity. -/
def dequePush (l : List Value) (cap : Nat) (v : Value) : List Value :=
  (l ++ [v]).drop (l.length + 1 - cap)

/-- Python "x in deque" on the recent-id ring. -/
def ringHas (l : List Value) (v : Value) : Bool :=
  l.any (fun x => valueBeq x v)

/-- is_ocsf: an explicit format marker or the presence of
category_name. -/
def isOcsf (e : Dict) : Bool :=
  valueBeq (dictGetD e "format" vNull) (vStr "ocsf") || (e.lookup "category_name").isSome

/-- log_entry.get('source') in INTERNAL_SERVICES (a missing or
non-string source is in no string set). -/
def isInternalSource (e : Dict) : Bool :=
  match e.lookup "source" with
  | some (vStr s) => INTERNAL_SERVICES.contains s
  | _ => false

/-- log_id = log_entry.get('id'); an explicit JSON null is
indistinguishable from an absent key. -/
def logIdOf (e : Dict) : Option Value :=
  match e.lookup "id" with
  | some vNull => none
  | x => x

/-- The shape-appropriate matcher used by the analysis loop. -/
def shapeMatch (qm : QueryOracle) (ocsf : Bool) (r : Rule) (e : Dict) : Bool :=
  if ocsf then match_ocsf_rule qm r e else match_rule r e

/-- Alert built at the first matching rule: id, title and level are
copied from the rule; log_source is category_name (OCSF) or source
(legacy), default "unknown". -/
def mkAlert (r : Rule) (e : Dict) (ocsf : Bool) : Alert :=
  { rule_id := r.id, rule_name := r.title,
    log_source := if ocsf then dictGetD e "category_name" (vStr "unknown")
                  else dictGetD e "source" (vStr "unknown"),
    matched_log := e, severity := r.level }

/-- Result of one /analyze request: the alerts array of the response and
the engine state afterwards. -/
structure AnalyzeResult where
  alerts : List Alert
  state : EngineState

/-- The rule loop of analyze_log: find the first enabled matching rule
in load order and stop there. -/
def analyzeEval (qm : QueryOracle) (st : EngineState) (e : Dict) : AnalyzeResult :=
  match st.sigma_rules.find? (fun r => r.enabled && shapeMatch qm (isOcsf e) r e) with
  | some r => ⟨[mkAlert r e (isOcsf e)], st⟩
  | none => ⟨[], st⟩

/-- Dedup step of analyze_log on the extracted log id: a known id
answers empty without touching the state; otherwise the id is pushed
onto the ring, the counter bumped, and the rule loop runs. -/
def analyzeDedup (qm : QueryOracle) (st : EngineState) (e : Dict) :
    Option Value → AnalyzeResult
  | some v =>
    if ringHas st.processed_log_ids v then ⟨[], st⟩
    else analyzeEval qm
      { st with processed_log_ids := dequePush st.processed_log_ids 1000 v,
                processed_logs := st.processed_logs + 1 } e
  | none => analyzeEval qm { st with processed_logs := st.processed_logs + 1 } e

/-- analyze_log (src lines 632-689): internal-service skip for legacy
events, then dedup on the recent-id ring, then counter bump and the
first-match rule loop. -/
def analyze_log (qm : QueryOracle) (st : EngineState) (e : Dict) : AnalyzeResult :=
  if !(isOcsf e) && isInternalSource e then ⟨[], st⟩
  else analyzeDedup qm st e (logIdOf e)

/-- Python dict assignment d[k] = v: overwrite in place, else append. -/
def dictSet (d : List (String × Bool)) (k : String) (v : Bool) : List (String × Bool) :=
  if (d.lookup k).isSome then d.map (fun p => if p.1 = k then (k, v) else p)
  else d ++ [(k, v)]

/-- The for-loop of toggle_rule: flip the first rule with the given id. -/
def setRuleEnabled : List Rule → String → Bool → List Rule
  | [], _, _ => []
  | r :: rs, rid, en =>
    if r.id = rid then { r with enabled := en } :: rs
    else r :: setRuleEnabled rs rid en

/-- Body of toggle_rule before its try/except (src lines 710-730): the
rule-state map is written first, then the corpus is searched; an
unknown id raises HTTPException(404). -/
def toggle_rule_body (st : EngineState) (rid : String) (en : Bool) :
    EngineState × Except Nat Unit :=
  let st' := { st with rule_states := dictSet st.rule_states rid en,
                       sigma_rules := setRuleEnabled st.sigma_rules rid en }
  if st.sigma_rules.any (fun r => r.id == rid) then (st', Except.ok ())
  else (st', Except.error 404)

/-- toggle_rule as the caller sees it: the blanket `except Exception`
catches every raised exception — the explicit HTTPException(404)
included — and re-raises HTTPException(500), so the endpoint answers
200 on success and 500 on any raise. -/
def toggle_rule (st : EngineState) (rid : String) (en : Bool) : EngineState × Nat :=
  match toggle_rule_body st rid en with
  | (st', Except.ok _) => (st', 200)
  | (st', Except.error _) => (st', 500)

/-- get_rule_category: slash-joined non-empty directory components of
the rule file's path below the rules root, "uncategorized" when empty. -/
def get_rule_category (dirParts : List String) : String :=
  let cp := String.intercalate "/" (dirParts.filter (fun p => p ≠ ""))
  if cp = "" then "uncategorized" else cp

/-- What yaml.safe_load produced for one file: an exception, or a
document value. -/
inductive ParseOutcome where
  | parseError : ParseOutcome
  | parsed : Value → ParseOutcome

/-- One file met by the directory walk of load_rules. -/
structure RuleFile where
  name : String
  dirParts : List String
  outcome : ParseOutcome

/-- The file passes the .yml / .yaml extension filter. -/
def hasRuleExt (name : String) : Bool :=
  strEnds name ".yml" || strEnds name ".yaml"

/-- os.path.splitext(file)[0]: the name up to the last dot. -/
def splitextStem (name : String) : String :=
  String.mk ((name.data.reverse.dropWhile (fun c => c != '.')).drop 1).reverse

/-- d.get('description',''): a present value must be a string for the
Rule model (none = the per-file try/except skips the file). -/
def descVal : Option Value → Option String
  | none => some ""
  | some (vStr s) => some s
  | some _ => none

/-- d.get('level','medium'), string-typed like descVal. -/
def levelVal : Option Value → Option String
  | none => some "medium"
  | some (vStr s) => some s
  | some _ => none

/-- data.get('id', stem): the filename stem when the document has no id. -/
def idVal (o : Option Value) (stem : String) : Option String :=
  match o with
  | none => some stem
  | some (vStr s) => some s
  | some _ => none

/-- Coerce dict entries to string-to-string pairs (the Rule model's
logsource type); a non-string value raises. -/
def strPairs : List (String × Value) → Option (List (String × String))
  | [] => some []
  | (k, vStr s) :: rest => (strPairs rest).map (fun l => (k, s) :: l)
  | _ :: _ => none

/-- data.get('logsource', \x7b\x7d), coerced by the Rule model to a
string-to-string mapping. -/
def logsourceVal : Option Value → Option (List (String × String))
  | none => some []
  | some (vDict entries) => strPairs entries
  | some _ => none

/-- Construct the Rule record from a parsed mapping that has detection
and title (src lines 247-260); a field that does not fit the pydantic
model raises, and the per-file handler skips the file. -/
def mkRule (states : List (String × Bool)) (stem : String) (category : String)
    (data : Dict) : Option Rule :=
  match data.lookup "title", data.lookup "detection" with
  | some (vStr title), some (vDict det) =>
    match descVal (data.lookup "description"), levelVal (data.lookup "level"),
          idVal (data.lookup "id") stem, logsourceVal (data.lookup "logsource") with
    | some desc, some lvl, some rid, some ls =>
      some { id := rid, title := title, description := desc, level := lvl,
             detection := det, logsource := ls,
             enabled := (states.lookup rid).getD false, category := category }
    | _, _, _, _ => none
  | _, _ => none

/-- Per-file step of load_rules (src lines 232-268): only .yml/.yaml
files are read; a parse failure, a non-mapping document, a document
missing detection or missing title, or a document whose fields do not
fit the Rule model is skipped, and the walk continues. -/
def loadFile (states : List (String × Bool)) (f : RuleFile) : Option Rule :=
  if hasRuleExt f.name then
    match f.outcome with
    | ParseOutcome.parseError => none
    | ParseOutcome.parsed (vDict data) =>
      if (data.lookup "detection").isNone || (data.lookup "title").isNone then none
      else mkRule states (splitextStem f.name) (get_rule_category f.dirParts) data
    | ParseOutcome.parsed _ => none
  else none

/-- load_rules, pure corpus-building part: the directory-walk retry
loop, git refresh and stats updates are I/O and are not part of the
per-file semantics.  Every valid file appends one Rule, in walk
order. -/
def load_rules (states : List (String × Bool)) (files : List RuleFile) : List Rule :=
  files.filterMap (loadFile states)

/-- Query oracle recording a pySigma conversion failure; the conversion
raises for every rule whose detection carries no condition expression,
keywords-only and bare-selection detections included. -/
def qmNone : QueryOracle := fun _ _ => none

/-- String-or-absent shape test for one optional YAML field, as the
Rule model's str fields accept it. -/
def strOrAbsent : Option Value → Bool
  | none => true
  | some (vStr _) => true
  | some _ => false

/-- vDict-or-absent shape test for the detection field. -/
def dictOrAbsent : Option Value → Bool
  | none => true
  | some (vDict _) => true
  | some _ => false

/-- One dict entry holds a string value. -/
def entryIsStr (kv : String × Value) : Bool :=
  match kv.2 with
  | vStr _ => true
  | _ => false

/-- The optional logsource field is absent or a string-to-string
mapping. -/
def logsourceOk : Option Value → Bool
  | none => true
  | some (vDict entries) => entries.all entryIsStr
  | some _ => false

/-- The document's optional fields all fit the Rule model's types. -/
def wellTypedRuleData (data : Dict) : Bool :=
  strOrAbsent (data.lookup "title") && dictOrAbsent (data.lookup "detection") &&
  strOrAbsent (data.lookup "description") && strOrAbsent (data.lookup "level") &&
  strOrAbsent (data.lookup "id") && logsourceOk (data.lookup "logsource")

-- Concrete corpora, rules, events and files used by the claim
-- instances below.

/-- A rule whose detection Selection is the empty mapping. -/
def emptySelRule : Rule :=
  { id := "empty-sel", title := "Empty selection", description := "", level := "medium",
    detection := [("selection", vDict [])], logsource := [], enabled := true }

/-- A legacy event with ordinary metadata. -/
def evC2 : Dict :=
  [("source", vStr "auth"), ("metadata", vDict [("user", vStr "root")])]

/-- A legacy event carrying only log_metadata. -/
def evC2b : Dict := [("log_metadata", vDict [("a", vStr "b")])]

/-- An enabled selection rule matching user = root. -/
def rootRule : Rule :=
  { id := "r-root", title := "Root activity", description := "", level := "high",
    detection := [("selection", vDict [("user", vStr "root")])], logsource := [],
    enabled := true }

/-- A second enabled rule matching the same events as rootRule. -/
def rootRule2 : Rule :=
  { id := "r-root-2", title := "Root activity copy", description := "", level := "low",
    detection := [("selection", vDict [("user", vStr "root")])], logsource := [],
    enabled := true }

/-- Corpus with two enabled rules that both match evC1. -/
def stC1 : EngineState :=
  { sigma_rules := [rootRule, rootRule2], rule_states := [], processed_logs := 0,
    processed_log_ids := [] }

/-- A legacy event both rules of stC1 match. -/
def evC1 : Dict :=
  [("id", vStr "log-7"), ("source", vStr "auth"),
   ("metadata", vDict [("user", vStr "root")])]

/-- The alert the first loaded rule produces on evC1. -/
def aC1 : Alert := mkAlert rootRule evC1 false

/-- Engine state for the dedup scenario. -/
def stC4 : EngineState :=
  { sigma_rules := [rootRule], rule_states := [], processed_logs := 0,
    processed_log_ids := [] }

/-- An identified legacy event matching rootRule. -/
def evC4 : Dict :=
  [("id", vStr "log-1"), ("source", vStr "auth"),
   ("metadata", vDict [("user", vStr "root")])]

/-- A legacy event from an internal sibling service whose metadata
rootRule would match. -/
def evInternal : Dict :=
  [("source", vStr "api"), ("metadata", vDict [("user", vStr "root")])]

/-- Rule with the Selection field value "Admin". -/
def adminRule : Rule :=
  { id := "r-admin", title := "Admin activity", description := "", level := "medium",
    detection := [("selection", vDict [("user", vStr "Admin")])], logsource := [],
    enabled := true }

def evAdminLower : Dict := [("metadata", vDict [("user", vStr "admin")])]

def evAdminUpper : Dict := [("metadata", vDict [("user", vStr "ADMIN")])]

/-- Rule using the contains modifier with value "fail". -/
def failContainsRule : Rule :=
  { id := "r-fail", title := "Failed something", description := "", level := "medium",
    detection := [("selection", vDict [("message|contains", vStr "fail")])],
    logsource := [], enabled := true }

def evFailedPw : Dict :=
  [("metadata", vDict [("message", vStr "Failed password for root")])]

/-- OCSF rule: an authentication-category rule with a keywords
detection.  "authentication" has entries in the (unreachable) synonym
table: "identity & access management" and "authentication". -/
def ocsfKwRule : Rule :=
  { id := "r-ocsf", title := "Forbidden keyword", description := "", level := "high",
    detection := [("keywords", vList [vStr "forbidden"])],
    logsource := [("category", "authentication")], enabled := true }

/-- OCSF event whose category_name and activity_name contain no synonym
of "authentication", but whose body contains the keyword. -/
def evOcsf : Dict :=
  [("category_name", vStr "findings"), ("activity_name", vStr "other"),
   ("class_name", vStr "base event"), ("message", vStr "forbidden action")]

/-- Engine state for the toggle scenarios: one known rule, empty state
map. -/
def stC3 : EngineState :=
  { sigma_rules := [rootRule], rule_states := [], processed_logs := 0,
    processed_log_ids := [] }

/-- Empty engine for the toggle-then-reload scenario. -/
def stC10 : EngineState :=
  { sigma_rules := [], rule_states := [], processed_logs := 0, processed_log_ids := [] }

/-- A rule file carrying a given rule id, as a later corpus reload
would meet it. -/
def ghostFile (gid : String) : RuleFile :=
  { name := "ghost.yml", dirParts := ["linux"],
    outcome := ParseOutcome.parsed (vDict
      [("title", vStr "Ghost rule"), ("id", vStr gid), ("detection", vDict [])]) }

/-- A parsed mapping that has a title but no detection. -/
def titleOnlyFile : RuleFile :=
  { name := "titleonly.yml", dirParts := [],
    outcome := ParseOutcome.parsed (vDict [("title", vStr "No detection here")]) }

/-- A file whose YAML text does not parse. -/
def malformedFile : RuleFile :=
  { name := "broken.yml", dirParts := [], outcome := ParseOutcome.parseError }

/-- The parsed document of the n-th valid file. -/
def validData (n : Nat) : Dict :=
  [("id", vStr ("rule-" ++ toString n)), ("title", vStr ("Rule " ++ toString n)),
   ("detection", vDict [("keywords", vList [vStr "x"])])]

/-- One of ten well-formed rule files. -/
def mkValidFile (n : Nat) : RuleFile :=
  { name := "rule" ++ toString n ++ ".yml", dirParts := ["linux"],
    outcome := ParseOutcome.parsed (vDict (validData n)) }

def tenValidFiles : List RuleFile := (List.range 10).map mkValidFile

/-- Two files on the walk producing the same rule id. -/
def dupFileA : RuleFile :=
  { name := "a.yml", dirParts := ["windows"],
    outcome := ParseOutcome.parsed (vDict
      [("id", vStr "dup-id"), ("title", vStr "A"),
       ("detection", vDict [("keywords", vList [vStr "x"])])]) }

def dupFileB : RuleFile :=
  { name := "b.yml", dirParts := ["windows"],
    outcome := ParseOutcome.parsed (vDict
      [("id", vStr "dup-id"), ("title", vStr "B"),
       ("detection", vDict [("keywords", vList [vStr "y"])])]) }

mutual
theorem valueBeq_refl : ∀ v : Value, valueBeq v v = true
  | vNull => rfl
  | vBool b => by simp [valueBeq]
  | vInt n => by simp [valueBeq]
  | vStr s => by simp [valueBeq]
  | vList xs => by rw [show valueBeq (vList xs) (vList xs) = valueBeqList xs xs from rfl]
                   exact valueBeqList_refl xs
  | vDict kvs => by rw [show valueBeq (vDict kvs) (vDict kvs) = valueBeqPairs kvs kvs from rfl]
                    exact valueBeqPairs_refl kvs

theorem valueBeqList_refl : ∀ xs : List Value, valueBeqList xs xs = true
  | [] => rfl
  | x :: xs => by
      rw [show valueBeqList (x :: xs) (x :: xs) = (valueBeq x x && valueBeqList xs xs) from rfl]
      rw [valueBeq_refl x, valueBeqList_refl xs]
      rfl

theorem valueBeqPairs_refl : ∀ kvs : List (String × Value), valueBeqPairs kvs kvs = true
  | [] => rfl
  | (k, v) :: kvs => by
      rw [show valueBeqPairs ((k, v) :: kvs) ((k, v) :: kvs) =
            ((k == k && valueBeq v v) && valueBeqPairs kvs kvs) from rfl]
      rw [valueBeq_refl v, valueBeqPairs_refl kvs]
      simp
end

theorem char_toNat_ofNat {n : Nat} (h : n.isValidChar) : (Char.ofNat n).toNat = n := by
  unfold Char.ofNat
  rw [dif_pos h]
  rfl

theorem lowerChar_idem (c : Char) : lowerChar (lowerChar c) = lowerChar c := by
  by_cases h : 65 ≤ c.toNat ∧ c.toNat ≤ 90
  · have hv : (c.toNat + 32).isValidChar := Or.inl (by omega)
    have ht := char_toNat_ofNat hv
    have h1 : lowerChar c = Char.ofNat (c.toNat + 32) := by
      simp only [lowerChar, if_pos h]
    rw [h1]
    simp only [lowerChar]
    rw [if_neg (by rw [ht]; omega)]
  · have h1 : lowerChar c = c := by simp only [lowerChar, if_neg h]
    rw [h1, h1]

theorem map_lower_idem (l : List Char) :
    (l.map lowerChar).map lowerChar = l.map lowerChar := by
  induction l with
  | nil => rfl
  | cons c cs ih => simp only [List.map_cons, lowerChar_idem, ih]

theorem lowerStr_idem (s : String) : lowerStr (lowerStr s) = lowerStr s := by
  show String.mk ((s.data.map lowerChar).map lowerChar) = String.mk (s.data.map lowerChar)
  rw [map_lower_idem]

theorem ringHas_dequePush_self (l : List Value) (v : Value) :
    ringHas (dequePush l 1000 v) v = true := by
  unfold dequePush ringHas
  rw [List.drop_append_of_le_length (by omega)]
  simp [valueBeq_refl]

theorem analyzeEval_state (qm : QueryOracle) (st : EngineState) (e : Dict) :
    (analyzeEval qm st e).state = st := by
  unfold analyzeEval
  split <;> rfl

theorem analyzeDedup_hit (qm : QueryOracle) (st : EngineState) (e : Dict) (v : Value)
    (h : ringHas st.processed_log_ids v = true) :
    analyzeDedup qm st e (some v) = ⟨[], st⟩ := by
  simp only [analyzeDedup]
  rw [if_pos h]

theorem analyzeDedup_miss (qm : QueryOracle) (st : EngineState) (e : Dict) (v : Value)
    (h : ¬ ringHas st.processed_log_ids v = true) :
    analyzeDedup qm st e (some v) =
      analyzeEval qm
        { st with processed_log_ids := dequePush st.processed_log_ids 1000 v,
                  processed_logs := st.processed_logs + 1 } e := by
  simp only [analyzeDedup]
  rw [if_neg h]

theorem logIdOf_of_lookup {e : Dict} {v : Value}
    (hid : e.lookup "id" = some v) (hnn : v ≠ vNull) : logIdOf e = some v := by
  unfold logIdOf
  rw [hid]
  cases v <;> first | rfl | exact absurd rfl hnn

theorem analyzeEval_spec (qm : QueryOracle) (st : EngineState) (e : Dict) :
    (analyzeEval qm st e).alerts.length ≤ 1 ∧
    (∀ a, (analyzeEval qm st e).alerts = [a] →
      ∃ pre r post, st.sigma_rules = pre ++ r :: post ∧ r.enabled = true ∧
        shapeMatch qm (isOcsf e) r e = true ∧ a = mkAlert r e (isOcsf e) ∧
        ∀ q ∈ pre, (q.enabled && shapeMatch qm (isOcsf e) q e) = false) ∧
    ((∃ r ∈ st.sigma_rules, r.enabled = true ∧ shapeMatch qm (isOcsf e) r e = true) →
      (analyzeEval qm st e).alerts ≠ []) := by
  unfold analyzeEval
  cases hf : st.sigma_rules.find? (fun r => r.enabled && shapeMatch qm (isOcsf e) r e) with
  | none =>
    refine ⟨by simp, by intro a ha; simp at ha, ?_⟩
    intro h
    obtain ⟨r, hr, hen, hm⟩ := h
    have hnone := List.find?_eq_none.mp hf r hr
    exact absurd (by rw [hen, hm]; rfl) hnone
  | some r0 =>
    obtain ⟨hp, pre, post, hsplit, hall⟩ := List.find?_eq_some.mp hf
    have hp' : r0.enabled = true ∧ shapeMatch qm (isOcsf e) r0 e = true := by
      simpa using hp
    refine ⟨by simp, ?_, by intro _; simp⟩
    intro a ha
    simp only [List.cons.injEq, and_true] at ha
    refine ⟨pre, r0, post, hsplit, hp'.1, hp'.2, ha.symm, ?_⟩
    intro q hq
    have hq' := hall q hq
    cases hb : (q.enabled && shapeMatch qm (isOcsf e) q e) with
    | false => rfl
    | true => rw [hb] at hq'; exact absurd hq' (by simp)

/-- C1: for every inbound event, analyze returns an alerts array of
length 0 or 1; whenever the response is a single alert, that alert
carries the id, title and level of the first rule in load order that is
enabled and matches (all rules before it fail), and whenever the
internal-service skip and the dedup ring do not intercept the event and
some enabled rule matches, an alert is returned.  First-match-wins is
rendered by the split st.sigma_rules = pre ++ r :: post with every rule
of pre failing; rules after r contribute nothing to the result, which
is the shallow form of "no rule after the first match is evaluated". -/
theorem analyze_first_match_wins (qm : QueryOracle) (st : EngineState) (e : Dict) :
    (analyze_log qm st e).alerts.length ≤ 1 ∧
    (∀ a, (analyze_log qm st e).alerts = [a] →
      ∃ pre r post, st.sigma_rules = pre ++ r :: post ∧ r.enabled = true ∧
        shapeMatch qm (isOcsf e) r e = true ∧ a.rule_id = r.id ∧
        a.rule_name = r.title ∧ a.severity = r.level ∧
        ∀ q ∈ pre, (q.enabled && shapeMatch qm (isOcsf e) q e) = false) ∧
    (((!(isOcsf e) && isInternalSource e) = false) →
     (∀ v, logIdOf e = some v → ringHas st.processed_log_ids v = false) →
     (∃ r ∈ st.sigma_rules, r.enabled = true ∧ shapeMatch qm (isOcsf e) r e = true) →
     (analyze_log qm st e).alerts ≠ []) := by
  unfold analyze_log
  by_cases hskip : (!(isOcsf e) && isInternalSource e) = true
  · rw [if_pos hskip]
    refine ⟨by simp, by intro a ha; simp at ha, ?_⟩
    intro hs
    rw [hs] at hskip
    exact absurd hskip (by simp)
  · rw [if_neg hskip]
    cases hid : logIdOf e with
    | some v =>
      simp only [analyzeDedup]
      by_cases hr : ringHas st.processed_log_ids v = true
      · rw [if_pos hr]
        refine ⟨by simp, by intro a ha; simp at ha, ?_⟩
        intro _ hdup _
        have hf := hdup v rfl
        rw [hf] at hr
        exact absurd hr (by simp)
      · rw [if_neg hr]
        have hs := analyzeEval_spec qm
          { st with processed_log_ids := dequePush st.processed_log_ids 1000 v,
                    processed_logs := st.processed_logs + 1 } e
        refine ⟨hs.1, ?_, ?_⟩
        · intro a ha
          obtain ⟨pre, r, post, hsplit, hen, hm, haeq, hall⟩ := hs.2.1 a ha
          exact ⟨pre, r, post, hsplit, hen, hm, by rw [haeq]; rfl, by rw [haeq]; rfl,
            by rw [haeq]; rfl, hall⟩
        · intro _ _ hex
          exact hs.2.2 hex
    | none =>
      simp only [analyzeDedup]
      have hs := analyzeEval_spec qm { st with processed_logs := st.processed_logs + 1 } e
      refine ⟨hs.1, ?_, ?_⟩
      · intro a ha
        obtain ⟨pre, r, post, hsplit, hen, hm, haeq, hall⟩ := hs.2.1 a ha
        exact ⟨pre, r, post, hsplit, hen, hm, by rw [haeq]; rfl, by rw [haeq]; rfl,
          by rw [haeq]; rfl, hall⟩
      · intro _ _ hex
        exact hs.2.2 hex

/-- C1 witness: with two enabled rules that both match evC1 loaded in
that order, the response is exactly the alert of the first rule, and
the first rule's prefix (the rules before it) is empty. -/
theorem analyze_first_match_wins_witness :
    ∃ pre r post, stC1.sigma_rules = pre ++ r :: post ∧ r.enabled = true ∧
      shapeMatch qmNone (isOcsf evC1) r evC1 = true ∧ aC1.rule_id = r.id ∧
      aC1.rule_name = r.title ∧ aC1.severity = r.level ∧
      ∀ q ∈ pre, (q.enabled && shapeMatch qmNone (isOcsf evC1) q evC1) = false :=
  (analyze_first_match_wins qmNone stC1 evC1).2.1 aC1 rfl

/-- C2 counterexample: the claim says a rule whose detection Selection
is an empty mapping never matches, but match_rule falls through the
empty AND-loop and returns True on an ordinary event. -/
theorem empty_selection_matches_cex : match_rule emptySelRule evC2 = true := by decide

/-- C2 amended: a rule whose Selection is the empty mapping matches
vacuously — for every rule with empty logsource and an empty selection
mapping, and every event whose extracted metadata is a mapping,
match_rule returns true (the empty AND-set passes; the source only
guards against a non-dict selection, not an empty one). -/
theorem empty_selection_vacuous_match (rule : Rule) (e : Dict)
    (md : List (String × Value))
    (h1 : rule.logsource = []) (h2 : rule.detection.lookup "selection" = some (vDict []))
    (h3 : getMetadata e = vDict md) :
    match_rule rule e = true := by
  unfold match_rule matchRuleBody
  rw [h1, h3, h2]
  simp [logsourceCheck, metaSideCheck, valContainsKey, selectionFields]

/-- C2 witness: the amended statement applied to a concrete empty-
selection rule and an event carrying log_metadata. -/
theorem empty_selection_vacuous_match_witness :
    match_rule emptySelRule evC2b = true :=
  empty_selection_vacuous_match emptySelRule evC2b [("a", vStr "b")] rfl rfl rfl

/-- C8: a legacy (non-OCSF) event whose source is an internal-service
name is answered with an empty alerts array and an untouched state, no
matter which rules are loaded or enabled. -/
theorem internal_source_no_alert (qm : QueryOracle) (st : EngineState) (e : Dict)
    (h1 : isOcsf e = false) (h2 : isInternalSource e = true) :
    analyze_log qm st e = ⟨[], st⟩ := by
  unfold analyze_log
  rw [h1, h2]
  rfl

/-- C8 witness: an event from source "api" that an enabled loaded rule
would otherwise match is still answered with no alert. -/
theorem internal_source_no_alert_witness :
    match_rule rootRule evInternal = true ∧
    analyze_log qmNone stC3 evInternal = ⟨[], stC3⟩ :=
  ⟨by decide, internal_source_no_alert qmNone stC3 evInternal rfl rfl⟩

/-- C9: selection comparison in the legacy matcher is case-insensitive
and the contains modifier asks for substring containment: the rule
value "Admin" matches metadata "admin" and "ADMIN" exactly, "fail"
under the contains modifier matches "Failed password for root", and in
general an exact field compares the lowered metadata value with the
lowered rule value while a contains field tests the lowered rule value
as a substring of the lowered metadata value. -/
theorem legacy_match_case_insensitive_contains :
    match_rule adminRule evAdminLower = true ∧
    match_rule adminRule evAdminUpper = true ∧
    match_rule failContainsRule evFailedPw = true ∧
    (∀ rv mv : String,
      fieldCheck "user" (vStr rv) (vDict [("user", vStr mv)]) =
        some (lowerStr mv == lowerStr rv)) ∧
    (∀ rv mv : String,
      fieldCheck "message|contains" (vStr rv) (vDict [("message", vStr mv)]) =
        some (pyIn (lowerStr rv) (lowerStr mv))) := by
  refine ⟨by decide, by decide, by decide, ?_, ?_⟩
  · intro rv mv
    have hni : pyIn "|contains" "user" = false := by decide
    simp [fieldCheck, hni, valGet, pyStr, lowerStr_idem]
  · intro rv mv
    have hc : pyIn "|contains" "message|contains" = true := by decide
    have hs : splitHead "message|contains" = "message" := by decide
    simp [fieldCheck, hc, hs, valGet, pyStr]

set_option maxRecDepth 4096 in
/-- C4: an event whose id is already in the recent-id ring is answered
with an empty alerts array, the state (counter and ring included) is
untouched, and the loaded rules are irrelevant; moreover sending any
identified event twice in a row yields no alert on the second call. -/
theorem dedup_suppresses_repeat (qm : QueryOracle) (st : EngineState) (e : Dict)
    (v : Value) (hid : e.lookup "id" = some v) (hnn : v ≠ vNull) :
    (ringHas st.processed_log_ids v = true →
      (analyze_log qm st e).alerts = [] ∧ (analyze_log qm st e).state = st ∧
      ∀ rs, (analyze_log qm { st with sigma_rules := rs } e).alerts = []) ∧
    (analyze_log qm (analyze_log qm st e).state e).alerts = [] := by
  have hlog : logIdOf e = some v := logIdOf_of_lookup hid hnn
  constructor
  · intro hr
    unfold analyze_log
    by_cases hskip : (!(isOcsf e) && isInternalSource e) = true
    · rw [if_pos hskip]
      exact ⟨rfl, rfl, fun rs => by rw [if_pos hskip]⟩
    · rw [if_neg hskip, hlog, analyzeDedup_hit qm st e v hr]
      refine ⟨rfl, rfl, ?_⟩
      intro rs
      rw [if_neg hskip]
      have hr' : ringHas ({ st with sigma_rules := rs } : EngineState).processed_log_ids v
          = true := hr
      rw [analyzeDedup_hit qm { st with sigma_rules := rs } e v hr']
  · by_cases hskip : (!(isOcsf e) && isInternalSource e) = true
    · have h1 : analyze_log qm st e = ⟨[], st⟩ := by
        unfold analyze_log; rw [if_pos hskip]
      rw [h1]
      show (analyze_log qm st e).alerts = []
      rw [h1]
    · by_cases hrh : ringHas st.processed_log_ids v = true
      · have h1 : analyze_log qm st e = ⟨[], st⟩ := by
          unfold analyze_log
          rw [if_neg hskip, hlog, analyzeDedup_hit qm st e v hrh]
        rw [h1]
        show (analyze_log qm st e).alerts = []
        rw [h1]
      · have h1 : (analyze_log qm st e).state =
            { st with processed_log_ids := dequePush st.processed_log_ids 1000 v,
                      processed_logs := st.processed_logs + 1 } := by
          unfold analyze_log
          rw [if_neg hskip, hlog, analyzeDedup_miss qm st e v hrh]
          exact analyzeEval_state qm _ e
        rw [h1]
        unfold analyze_log
        rw [if_neg hskip, hlog]
        have h2 : ringHas ({ st with
            processed_log_ids := dequePush st.processed_log_ids 1000 v,
            processed_logs := st.processed_logs + 1 } : EngineState).processed_log_ids v
            = true := ringHas_dequePush_self st.processed_log_ids v
        rw [analyzeDedup_hit qm _ e v h2]

/-- C4 witness: evC4 alerts on the first call and is suppressed on the
immediate second call. -/
theorem dedup_suppresses_repeat_witness :
    (analyze_log qmNone (analyze_log qmNone stC4 evC4).state evC4).alerts = [] ∧
    (analyze_log qmNone stC4 evC4).alerts.length = 1 :=
  ⟨(dedup_suppresses_repeat qmNone stC4 evC4 (vStr "log-1") rfl
      (fun h => Value.noConfusion h)).2, rfl⟩

/-- C3 (code bug): toggling an unknown rule id does raise the intended
HTTPException(404) inside the handler body, but the handler's own
blanket except clause catches it and re-raises HTTPException(500), so
the caller observes a 500 response, not the 404 the spec (and the
handler's explicit raise) intend; the requested state was still
written. -/
theorem toggle_unknown_rule_returns_500 :
    (toggle_rule_body stC3 "ghost" true).2 = Except.error 404 ∧
    (toggle_rule stC3 "ghost" true).2 = 500 ∧
    (toggle_rule stC3 "ghost" true).1.rule_states.lookup "ghost" = some true :=
  ⟨rfl, rfl, rfl⟩

theorem lookup_cons_ne {β : Type} (k k1 : String) (v1 : β) (ps : List (String × β))
    (h : (k == k1) = false) : ((k1, v1) :: ps).lookup k = ps.lookup k := by
  rw [List.lookup_cons, h]

theorem lookup_cons_eq {β : Type} (k k1 : String) (v1 : β) (ps : List (String × β))
    (h : (k == k1) = true) : ((k1, v1) :: ps).lookup k = some v1 := by
  rw [List.lookup_cons, h]

theorem dictSet_lookup_self (d : List (String × Bool)) (k : String) (v : Bool) :
    (dictSet d k v).lookup k = some v := by
  induction d with
  | nil =>
    unfold dictSet
    rw [if_neg (by simp)]
    simp [List.lookup_cons]
  | cons p ps ih =>
    obtain ⟨k1, v1⟩ := p
    unfold dictSet at ih ⊢
    by_cases hk : k1 = k
    · have hbeq : (k == k1) = true := beq_iff_eq.mpr hk.symm
      have hsome : (((k1, v1) :: ps).lookup k).isSome := by
        rw [lookup_cons_eq k k1 v1 ps hbeq]; rfl
      rw [if_pos hsome]
      simp only [List.map_cons]
      rw [if_pos hk]
      rw [lookup_cons_eq k k v (ps.map fun q => if q.1 = k then (k, v) else q)
        (beq_iff_eq.mpr rfl)]
    · have hk2 : (k == k1) = false := beq_false_of_ne (fun h => hk h.symm)
      have hl : ((k1, v1) :: ps).lookup k = ps.lookup k := lookup_cons_ne k k1 v1 ps hk2
      by_cases hps : (ps.lookup k).isSome = true
      · have hs : (((k1, v1) :: ps).lookup k).isSome = true := by rw [hl]; exact hps
        rw [if_pos hs]
        rw [if_pos hps] at ih
        simp only [List.map_cons]
        rw [if_neg hk]
        rw [lookup_cons_ne k k1 v1 _ hk2]
        exact ih
      · have hs : ¬(((k1, v1) :: ps).lookup k).isSome = true := by rw [hl]; exact hps
        rw [if_neg hs]
        rw [if_neg hps] at ih
        rw [List.cons_append, lookup_cons_ne k k1 v1 _ hk2]
        exact ih

/-- C10: toggling an unknown rule id fails (500 after the swallowed
404), yet the requested enabled value has already been written into
the in-memory rule-state map, and a later corpus load that meets a
file with that id initialises the new rule with the leaked value. -/
theorem toggle_unknown_id_state_leak (st : EngineState) (gid : String) (en : Bool)
    (h : ∀ r ∈ st.sigma_rules, r.id ≠ gid) :
    (toggle_rule st gid en).2 = 500 ∧
    (toggle_rule st gid en).1.rule_states.lookup gid = some en ∧
    (load_rules (toggle_rule st gid en).1.rule_states [ghostFile gid]).map
      (fun r => r.enabled) = [en] := by
  have hany : st.sigma_rules.any (fun r => r.id == gid) = false := by
    rw [List.any_eq_false]
    intro r hr
    simpa using h r hr
  have hbody : toggle_rule_body st gid en =
      ({ st with rule_states := dictSet st.rule_states gid en,
                 sigma_rules := setRuleEnabled st.sigma_rules gid en },
       Except.error 404) := by
    unfold toggle_rule_body
    rw [hany]
    rfl
  have htr : toggle_rule st gid en =
      ({ st with rule_states := dictSet st.rule_states gid en,
                 sigma_rules := setRuleEnabled st.sigma_rules gid en }, 500) := by
    unfold toggle_rule
    rw [hbody]
  rw [htr]
  refine ⟨rfl, dictSet_lookup_self _ _ _, ?_⟩
  show [(((dictSet st.rule_states gid en).lookup gid).getD false)] = [en]
  rw [dictSet_lookup_self]
  rfl

/-- C10 witness: toggling "ghost-1" on an empty corpus fails with 500,
leaks enabled = true into the state map, and a reload meeting a file
with id "ghost-1" starts it enabled. -/
theorem toggle_unknown_id_state_leak_witness :
    (toggle_rule stC10 "ghost-1" true).2 = 500 ∧
    (toggle_rule stC10 "ghost-1" true).1.rule_states.lookup "ghost-1" = some true ∧
    (load_rules (toggle_rule stC10 "ghost-1" true).1.rule_states [ghostFile "ghost-1"]).map
      (fun r => r.enabled) = [true] :=
  toggle_unknown_id_state_leak stC10 "ghost-1" true (by simp [stC10])

/-- C5 counterexample: an authentication-category rule (a category with
synonym-table entries "identity & access management" and
"authentication") matches an OCSF event although neither synonym occurs
in the event's category_name ("findings") or activity_name ("other");
the synonym filtering the claim describes is dead code, and the
reachable fallback matches the keywords with no category check.  The
oracle records the pySigma conversion raising, which it does for a
keywords-only detection (no condition field); for every other oracle
answer the matcher returns true here as well. -/
theorem ocsf_category_filter_cex :
    match_ocsf_rule qmNone ocsfKwRule evOcsf = true ∧
    pyIn "identity & access management" (lowerStr "findings") = false ∧
    pyIn "authentication" (lowerStr "findings") = false ∧
    pyIn "identity & access management" (lowerStr "other") = false ∧
    pyIn "authentication" (lowerStr "other") = false := by
  refine ⟨by decide, by decide, by decide, by decide, by decide⟩

/-- C5 amended: the Sigma-to-OCSF synonym table and the direct substring
category checks are unreachable (the try/except before them returns on
every path), so the reachable OCSF matcher performs no category
filtering at all — whenever the pySigma conversion does not produce a
matching query, the result is basic_ocsf_match on the combined data,
and basic_ocsf_match does not read logsource at all (selection mappings
are never field-matched there and keywords are tested against the
serialized combined data). -/
theorem ocsf_matcher_ignores_category :
    (∀ (qm : QueryOracle) (rule : Rule) (e cd : Dict),
      combinedData e = some cd →
      (pyLowerV (dictGetD cd "class_name" (vStr ""))).isSome = true →
      (pyLowerV (dictGetD cd "category_name" (vStr ""))).isSome = true →
      (pyLowerV (dictGetD cd "activity_name" (vStr ""))).isSome = true →
      qm rule cd ≠ some true →
      match_ocsf_rule qm rule e = basic_ocsf_match rule cd) ∧
    (∀ (rule : Rule) (cd : Dict) (ls : List (String × String)),
      basic_ocsf_match { rule with logsource := ls } cd = basic_ocsf_match rule cd) := by
  constructor
  · intro qm rule e cd hcd h1 h2 h3 hqm
    unfold match_ocsf_rule
    rw [hcd]
    show ocsfInner qm rule cd = basic_ocsf_match rule cd
    obtain ⟨s1, hs1⟩ := Option.isSome_iff_exists.mp h1
    obtain ⟨s2, hs2⟩ := Option.isSome_iff_exists.mp h2
    obtain ⟨s3, hs3⟩ := Option.isSome_iff_exists.mp h3
    unfold ocsfInner
    rw [hs1, hs2, hs3]
    cases hq : qm rule cd with
    | none => rfl
    | some b =>
      cases b with
      | true => exact absurd hq hqm
      | false => rfl
  · intro rule cd ls
    rfl

/-- C5 witness: the amended statement applied to the concrete
authentication rule and OCSF event, with the conversion-failure
oracle. -/
theorem ocsf_matcher_ignores_category_witness :
    match_ocsf_rule qmNone ocsfKwRule evOcsf = basic_ocsf_match ocsfKwRule evOcsf :=
  ocsf_matcher_ignores_category.1 qmNone ocsfKwRule evOcsf evOcsf rfl rfl rfl rfl
    (fun h => Option.noConfusion h)

theorem descVal_isSome {o : Option Value} (h : strOrAbsent o = true) :
    (descVal o).isSome = true := by
  cases o with
  | none => rfl
  | some v => cases v <;> first | rfl | exact absurd h (by simp [strOrAbsent])

theorem levelVal_isSome {o : Option Value} (h : strOrAbsent o = true) :
    (levelVal o).isSome = true := by
  cases o with
  | none => rfl
  | some v => cases v <;> first | rfl | exact absurd h (by simp [strOrAbsent])

theorem idVal_isSome {o : Option Value} (stem : String) (h : strOrAbsent o = true) :
    (idVal o stem).isSome = true := by
  cases o with
  | none => rfl
  | some v => cases v <;> first | rfl | exact absurd h (by simp [strOrAbsent])

theorem strPairs_isSome {entries : List (String × Value)}
    (h : entries.all entryIsStr = true) : (strPairs entries).isSome = true := by
  induction entries with
  | nil => rfl
  | cons kv rest ih =>
    obtain ⟨k, v⟩ := kv
    rw [List.all_cons] at h
    simp only [Bool.and_eq_true] at h
    cases v with
    | vStr s =>
      have hrest := ih h.2
      unfold strPairs
      cases hf : strPairs rest with
      | none => rw [hf] at hrest; exact absurd hrest (by simp)
      | some l => rfl
    | vNull => exact absurd h.1 (by simp [entryIsStr])
    | vBool b => exact absurd h.1 (by simp [entryIsStr])
    | vInt n => exact absurd h.1 (by simp [entryIsStr])
    | vList xs => exact absurd h.1 (by simp [entryIsStr])
    | vDict kvs => exact absurd h.1 (by simp [entryIsStr])

theorem logsourceVal_isSome {o : Option Value} (h : logsourceOk o = true) :
    (logsourceVal o).isSome = true := by
  cases o with
  | none => rfl
  | some v =>
    cases v with
    | vDict entries => exact strPairs_isSome h
    | vNull => exact absurd h (by simp [logsourceOk])
    | vBool b => exact absurd h (by simp [logsourceOk])
    | vInt n => exact absurd h (by simp [logsourceOk])
    | vStr s => exact absurd h (by simp [logsourceOk])
    | vList xs => exact absurd h (by simp [logsourceOk])

theorem mkRule_isSome (states : List (String × Bool)) (stem category : String)
    (data : Dict) (hw : wellTypedRuleData data = true)
    (ht : (data.lookup "title").isSome = true)
    (hd : (data.lookup "detection").isSome = true) :
    (mkRule states stem category data).isSome = true := by
  unfold wellTypedRuleData at hw
  simp only [Bool.and_eq_true] at hw
  obtain ⟨⟨⟨⟨⟨hwt, hwd⟩, hwdesc⟩, hwlvl⟩, hwid⟩, hwls⟩ := hw
  cases hto : data.lookup "title" with
  | none => rw [hto] at ht; exact absurd ht (by simp)
  | some tv =>
    rw [hto] at hwt
    cases tv with
    | vNull => exact absurd hwt (by simp [strOrAbsent])
    | vBool b => exact absurd hwt (by simp [strOrAbsent])
    | vInt n => exact absurd hwt (by simp [strOrAbsent])
    | vList xs => exact absurd hwt (by simp [strOrAbsent])
    | vDict kvs => exact absurd hwt (by simp [strOrAbsent])
    | vStr t =>
    cases hdo : data.lookup "detection" with
    | none => rw [hdo] at hd; exact absurd hd (by simp)
    | some dv =>
      rw [hdo] at hwd
      cases dv with
      | vNull => exact absurd hwd (by simp [dictOrAbsent])
      | vBool b => exact absurd hwd (by simp [dictOrAbsent])
      | vInt n => exact absurd hwd (by simp [dictOrAbsent])
      | vList xs => exact absurd hwd (by simp [dictOrAbsent])
      | vStr s => exact absurd hwd (by simp [dictOrAbsent])
      | vDict det =>
      unfold mkRule
      rw [hto, hdo]
      obtain ⟨desc, hdesc⟩ := Option.isSome_iff_exists.mp (descVal_isSome hwdesc)
      obtain ⟨lvl, hlvl⟩ := Option.isSome_iff_exists.mp (levelVal_isSome hwlvl)
      obtain ⟨rid, hrid⟩ := Option.isSome_iff_exists.mp (idVal_isSome stem hwid)
      obtain ⟨ls, hls⟩ := Option.isSome_iff_exists.mp (logsourceVal_isSome hwls)
      rw [hdesc, hlvl, hrid, hls]
      rfl

/-- C6 counterexample: a parsed mapping that has a title but lacks only
the detection field is skipped by the loader, although the claim
(skip exactly when parse fails, non-mapping, or both detection and
title are missing; every other parsed mapping yields a Rule) predicts
it yields a Rule. -/
theorem loader_title_only_skipped_cex : load_rules [] [titleOnlyFile] = [] := rfl

/-- C6 amended: a YAML file is skipped exactly when it fails to parse,
parses to a non-mapping, or lacks a detection field or a title field
(the check is a disjunction, not a conjunction of the two absences),
for documents whose present fields fit the Rule model; and one
malformed file alongside 10 valid rule files still yields a 10-rule
corpus without aborting the load. -/
theorem loader_skip_conditions :
    (∀ (states : List (String × Bool)) (f : RuleFile) (data : Dict),
      hasRuleExt f.name = true →
      f.outcome = ParseOutcome.parsed (vDict data) →
      wellTypedRuleData data = true →
      (loadFile states f = none ↔
        ((data.lookup "detection").isNone || (data.lookup "title").isNone) = true)) ∧
    (∀ (states : List (String × Bool)) (f : RuleFile),
      f.outcome = ParseOutcome.parseError → loadFile states f = none) ∧
    (∀ (states : List (String × Bool)) (f : RuleFile) (v : Value),
      f.outcome = ParseOutcome.parsed v → (∀ d, v ≠ vDict d) →
      loadFile states f = none) ∧
    (load_rules [] (malformedFile :: tenValidFiles)).length = 10 := by
  refine ⟨?_, ?_, ?_, rfl⟩
  · intro states f data hext hout hw
    obtain ⟨nm, dp, oc⟩ := f
    simp only at hext hout
    subst hout
    show (if hasRuleExt nm then
            if ((data.lookup "detection").isNone || (data.lookup "title").isNone) then none
            else mkRule states (splitextStem nm) (get_rule_category dp) data
          else none) = none ↔ _
    rw [if_pos hext]
    by_cases hb : ((data.lookup "detection").isNone || (data.lookup "title").isNone) = true
    · rw [if_pos hb]
      simp [hb]
    · rw [if_neg hb]
      constructor
      · intro hnone
        simp only [Bool.or_eq_true] at hb
        push_neg at hb
        have ht : (data.lookup "title").isSome = true := by
          cases hx : data.lookup "title" with
          | none => exact absurd (by rw [hx]; rfl) hb.2
          | some _ => rfl
        have hd : (data.lookup "detection").isSome = true := by
          cases hx : data.lookup "detection" with
          | none => exact absurd (by rw [hx]; rfl) hb.1
          | some _ => rfl
        have hsome := mkRule_isSome states (splitextStem nm) (get_rule_category dp)
          data hw ht hd
        rw [hnone] at hsome
        exact absurd hsome (by simp)
      · intro hb'
        exact absurd hb' hb
  · intro states f hout
    obtain ⟨nm, dp, oc⟩ := f
    simp only at hout
    subst hout
    show (if hasRuleExt nm then none else none) = none
    split <;> rfl
  · intro states f v hout hnd
    obtain ⟨nm, dp, oc⟩ := f
    simp only at hout
    subst hout
    cases v <;> first
    | exact absurd rfl (hnd _)
    | · show (if hasRuleExt nm then none else none) = none
        split <;> rfl

/-- C6 witness: a well-formed valid file is not skipped. -/
theorem loader_skip_conditions_witness :
    loadFile [] (mkValidFile 0) ≠ none := fun hn => by
  have h := (loader_skip_conditions.1 [] (mkValidFile 0) (validData 0) rfl rfl rfl).mp hn
  exact absurd h (by decide)

/-- C7 counterexample: two files with the same id both survive the
load, so rule ids are not unique within the loaded corpus and there is
no last-write-wins replacement. -/
theorem duplicate_rule_ids_cex :
    ¬ ((load_rules [] [dupFileA, dupFileB]).map (fun r => r.id)).Nodup := by decide

/-- C7 amended: duplicate ids are not deduplicated — when two files on
the walk produce the same id, both rules are present in the loaded
list, in walk order (the earlier-observed file first), whatever the
rule-state map is; the load is not treated as an error. -/
theorem duplicate_rule_ids_kept (states : List (String × Bool)) :
    (load_rules states [dupFileA, dupFileB]).map (fun r => r.id) = ["dup-id", "dup-id"] ∧
    (load_rules states [dupFileA, dupFileB]).map (fun r => r.title) = ["A", "B"] :=
  ⟨rfl, rfl⟩

